import Mathlib

/-!
Shallow embedding of the `SimpleToken` ink! contract (`src/lib.rs`) and proofs
of its specification's claims.

Modelling choices:
- `AccountId` is an opaque comparable identifier, embedded as `Nat`.
- `u128` values are embedded as `Nat` together with the explicit bound
  `u128Mod = 2 ^ 128`; `checked_add` / `checked_sub` mirror Rust's
  `u128::checked_add` / `u128::checked_sub`.
- `ink::storage::Mapping` with `.get(k).unwrap_or(default)` is embedded as a
  total function with the default built in; `Mapping::insert` is `mapInsert`.
- Error `String`s are embedded as the inductive `Err`, one constructor per
  distinct error string in the source.
- Each message takes the environment-supplied caller (`self.env().caller()`)
  as an explicit first argument and threads the contract state explicitly.
  An operation returns `Option Err × SimpleToken`: the error (if any) and the
  state as left by the operation's own sequence of storage writes (so a
  failure after a write returns the partially mutated state, faithful to the
  raw Rust control flow).
- `commit` models the hosting environment's per-invocation atomic commit
  (spec §5): ink! reverts all storage writes of a message that returns `Err`,
  so the observable post-state of a failed call is the pre-state.
-/

namespace SimpleTokenBalance

abbrev AccountId := Nat

/-- The modulus of `u128` arithmetic: stored values range over `[0, u128Mod)`. -/
def u128Mod : Nat := 2 ^ 128

/-- `u128::checked_add`: `none` exactly when the mathematical sum overflows. -/
def checked_add (a b : Nat) : Option Nat :=
  if a + b < u128Mod then some (a + b) else none

/-- `u128::checked_sub`: `none` exactly when the subtrahend exceeds the minuend. -/
def checked_sub (a b : Nat) : Option Nat :=
  if b ≤ a then some (a - b) else none

/-- `Mapping::insert`: point update of a total map. -/
def mapInsert {α β : Type} [DecidableEq α] (m : α → β) (k : α) (v : β) : α → β :=
  fun x => if x = k then v else m x

/-- Contract storage (`#[ink(storage)] struct SimpleToken`). -/
structure SimpleToken where
  balances : AccountId → Nat
  allowances : AccountId × AccountId → Nat
  blacklisted : AccountId → Bool
  paused : Bool
  owner : AccountId

/-- One constructor per distinct error string returned by the contract. -/
inductive Err where
  | onlyOwner                 -- "Only owner can call"
  | contractPaused            -- "Contract is paused"
  | accountBlacklisted        -- "Account is blacklisted"
  | overflowOnMint            -- "Overflow on mint"
  | underflowOnBurn           -- "Underflow on burn"
  | allowanceUnderflow        -- "Allowance underflow"
  | mismatchedInputLengths    -- "Mismatched input lengths"
  | overflowInBatchTotal      -- "Overflow in batch total"
  | insufficientBalance       -- "Insufficient balance"
  | overflowInRecipientBalance -- "Overflow in recipient balance"
deriving DecidableEq

/-- Constructor `new()`: empty maps, unpaused, owner = deploying caller. -/
def SimpleToken.new (caller : AccountId) : SimpleToken :=
  { balances := fun _ => 0
    allowances := fun _ => 0
    blacklisted := fun _ => false
    paused := false
    owner := caller }

/-- `ensure_owner`: fails unless the caller is the stored owner. -/
def ensure_owner (caller : AccountId) (s : SimpleToken) : Option Err :=
  if caller ≠ s.owner then some Err.onlyOwner else none

/-- `ensure_not_paused`: fails if the paused flag is set. -/
def ensure_not_paused (s : SimpleToken) : Option Err :=
  if s.paused then some Err.contractPaused else none

/-- `ensure_not_blacklisted`: fails if the account is marked blacklisted. -/
def ensure_not_blacklisted (account : AccountId) (s : SimpleToken) : Option Err :=
  if s.blacklisted account then some Err.accountBlacklisted else none

/-- `balance_of`: stored balance or 0. -/
def balance_of (owner : AccountId) (s : SimpleToken) : Nat :=
  s.balances owner

/-- `allowance`: stored allowance or 0. -/
def allowance (owner spender : AccountId) (s : SimpleToken) : Nat :=
  s.allowances (owner, spender)

/-- `is_paused`. -/
def is_paused (s : SimpleToken) : Bool :=
  s.paused

/-- `is_blacklisted`: stored flag or false. -/
def is_blacklisted (account : AccountId) (s : SimpleToken) : Bool :=
  s.blacklisted account

/-- Private `_transfer(from, to, amount)`: guards, then reads both balances,
then checked debit and credit computed from the pre-read values, then the two
writes (`from` first, `to` second). -/
def _transfer (fromA toA : AccountId) (amount : Nat) (s : SimpleToken) :
    Option Err × SimpleToken :=
  match ensure_not_paused s with
  | some e => (some e, s)
  | none =>
  match ensure_not_blacklisted fromA s with
  | some e => (some e, s)
  | none =>
  match ensure_not_blacklisted toA s with
  | some e => (some e, s)
  | none =>
  let from_balance := s.balances fromA
  let to_balance := s.balances toA
  match checked_sub from_balance amount with
  | none => (some Err.insufficientBalance, s)
  | some new_from =>
  match checked_add to_balance amount with
  | none => (some Err.overflowInRecipientBalance, s)
  | some new_to =>
    (none, { s with balances := mapInsert (mapInsert s.balances fromA new_from) toA new_to })

/-- `mint(to, amount)`, owner-only, credits `to` with checked addition. -/
def mint (caller toA : AccountId) (amount : Nat) (s : SimpleToken) :
    Option Err × SimpleToken :=
  match ensure_owner caller s with
  | some e => (some e, s)
  | none =>
  match ensure_not_paused s with
  | some e => (some e, s)
  | none =>
  match ensure_not_blacklisted toA s with
  | some e => (some e, s)
  | none =>
  match checked_add (s.balances toA) amount with
  | none => (some Err.overflowOnMint, s)
  | some new_balance =>
    (none, { s with balances := mapInsert s.balances toA new_balance })

/-- `transfer(to, amount)`: the caller is the source; delegates to `_transfer`. -/
def transfer (caller toA : AccountId) (amount : Nat) (s : SimpleToken) :
    Option Err × SimpleToken :=
  _transfer caller toA amount s

/-- `burn(amount)`: self-service checked debit of the caller's balance. -/
def burn (caller : AccountId) (amount : Nat) (s : SimpleToken) :
    Option Err × SimpleToken :=
  match ensure_not_paused s with
  | some e => (some e, s)
  | none =>
  match ensure_not_blacklisted caller s with
  | some e => (some e, s)
  | none =>
  match checked_sub (s.balances caller) amount with
  | none => (some Err.underflowOnBurn, s)
  | some new_balance =>
    (none, { s with balances := mapInsert s.balances caller new_balance })

/-- `approve(spender, amount)`: unconditionally overwrites the stored allowance. -/
def approve (caller spender : AccountId) (amount : Nat) (s : SimpleToken) :
    Option Err × SimpleToken :=
  match ensure_not_paused s with
  | some e => (some e, s)
  | none =>
  match ensure_not_blacklisted caller s with
  | some e => (some e, s)
  | none =>
    (none, { s with allowances := mapInsert s.allowances (caller, spender) amount })

/-- `transfer_from(from, to, amount)`: the caller is the spender; checked
allowance decrement is written before `_transfer` runs. -/
def transfer_from (caller fromA toA : AccountId) (amount : Nat) (s : SimpleToken) :
    Option Err × SimpleToken :=
  match ensure_not_paused s with
  | some e => (some e, s)
  | none =>
  match ensure_not_blacklisted caller s with
  | some e => (some e, s)
  | none =>
  match ensure_not_blacklisted fromA s with
  | some e => (some e, s)
  | none =>
  match ensure_not_blacklisted toA s with
  | some e => (some e, s)
  | none =>
  match checked_sub (s.allowances (fromA, caller)) amount with
  | none => (some Err.allowanceUnderflow, s)
  | some new_allowance =>
    _transfer fromA toA amount
      { s with allowances := mapInsert s.allowances (fromA, caller) new_allowance }

/-- `pause()`: owner-only, sets the paused flag. -/
def pause (caller : AccountId) (s : SimpleToken) : Option Err × SimpleToken :=
  match ensure_owner caller s with
  | some e => (some e, s)
  | none => (none, { s with paused := true })

/-- `unpause()`: owner-only, clears the paused flag. -/
def unpause (caller : AccountId) (s : SimpleToken) : Option Err × SimpleToken :=
  match ensure_owner caller s with
  | some e => (some e, s)
  | none => (none, { s with paused := false })

/-- `blacklist(account)`: owner-only, marks the account. -/
def blacklist (caller account : AccountId) (s : SimpleToken) :
    Option Err × SimpleToken :=
  match ensure_owner caller s with
  | some e => (some e, s)
  | none => (none, { s with blacklisted := mapInsert s.blacklisted account true })

/-- `unblacklist(account)`: owner-only, clears the mark. -/
def unblacklist (caller account : AccountId) (s : SimpleToken) :
    Option Err × SimpleToken :=
  match ensure_owner caller s with
  | some e => (some e, s)
  | none => (none, { s with blacklisted := mapInsert s.blacklisted account false })

/-- The checked accumulation `for amount in &amounts { total = total.checked_add(*amount)? }`. -/
def checked_total (total : Nat) (amounts : List Nat) : Option Nat :=
  match amounts with
  | [] => some total
  | a :: rest =>
    match checked_add total a with
    | none => none
    | some t => checked_total t rest

/-- The per-recipient loop of `batch_transfer`: blacklist check, checked
credit, write — in input order (recipient/amount pairs are the zipped lists,
which agree with indexed access because the lengths were checked equal). -/
def batch_credit_loop (pairs : List (AccountId × Nat)) (s : SimpleToken) :
    Option Err × SimpleToken :=
  match pairs with
  | [] => (none, s)
  | (recipient, amount) :: rest =>
    match ensure_not_blacklisted recipient s with
    | some e => (some e, s)
    | none =>
    match checked_add (s.balances recipient) amount with
    | none => (some Err.overflowInRecipientBalance, s)
    | some updated =>
      batch_credit_loop rest { s with balances := mapInsert s.balances recipient updated }

/-- `batch_transfer(recipients, amounts)`: guards, length check, checked total,
single sender debit, then the per-recipient credit loop. -/
def batch_transfer (caller : AccountId) (recipients : List AccountId)
    (amounts : List Nat) (s : SimpleToken) : Option Err × SimpleToken :=
  match ensure_not_paused s with
  | some e => (some e, s)
  | none =>
  match ensure_not_blacklisted caller s with
  | some e => (some e, s)
  | none =>
  if recipients.length ≠ amounts.length then (some Err.mismatchedInputLengths, s)
  else
  match checked_total 0 amounts with
  | none => (some Err.overflowInBatchTotal, s)
  | some total =>
  match checked_sub (s.balances caller) total with
  | none => (some Err.insufficientBalance, s)
  | some new_sender_balance =>
    batch_credit_loop (recipients.zip amounts)
      { s with balances := mapInsert s.balances caller new_sender_balance }

/-- Modelled from the spec: the hosting execution environment's per-invocation
atomic commit (spec §5) — this revert lives in the ink! runtime, not in
`src/lib.rs`. A message that returns `Err` has all its storage writes
reverted, so the observable post-state is the pre-state; only an `Ok` result
commits the state the operation produced. -/
def commit (r : Option Err × SimpleToken) (s : SimpleToken) : SimpleToken :=
  match r.1 with
  | some _ => s
  | none => r.2

/-- Well-formed storage: every stored balance and allowance is a `u128` value. -/
def WF (s : SimpleToken) : Prop :=
  (∀ a, s.balances a < u128Mod) ∧ (∀ p, s.allowances p < u128Mod)

/-! ## General lemmas about the embedding's building blocks -/

lemma mapInsert_same {α β : Type} [DecidableEq α] (m : α → β) (k : α) (v : β) :
    mapInsert m k v k = v := by
  simp [mapInsert]

lemma mapInsert_other {α β : Type} [DecidableEq α] (m : α → β) (k x : α) (v : β)
    (hx : x ≠ k) : mapInsert m k v x = m x := by
  simp [mapInsert, hx]

lemma checked_sub_eq_some {a b c : Nat} (h : checked_sub a b = some c) :
    b ≤ a ∧ c = a - b := by
  unfold checked_sub at h
  split at h <;> simp_all

lemma checked_add_eq_some {a b c : Nat} (h : checked_add a b = some c) :
    a + b < u128Mod ∧ c = a + b := by
  unfold checked_add at h
  split at h <;> simp_all

lemma checked_total_eq_some :
    ∀ (amounts : List Nat) (t r : Nat), checked_total t amounts = some r →
      r = t + amounts.sum := by
  intro amounts
  induction amounts with
  | nil =>
    intro t r h
    simp [checked_total] at h
    simp [← h]
  | cons a rest ih =>
    intro t r h
    unfold checked_total at h
    cases hca : checked_add t a with
    | none => rw [hca] at h; simp at h
    | some u =>
      rw [hca] at h
      obtain ⟨_, hu2⟩ := checked_add_eq_some hca
      have hr := ih u r h
      simp only [List.sum_cons]
      omega

/-- A successful checked accumulation computes the exact list sum. -/
lemma checked_total_sum {amounts : List Nat} {r : Nat}
    (h : checked_total 0 amounts = some r) : r = amounts.sum := by
  simpa using checked_total_eq_some amounts 0 r h

lemma map_snd_zip_eq :
    ∀ (xs : List AccountId) (ys : List Nat), xs.length = ys.length →
      (xs.zip ys).map Prod.snd = ys := by
  intro xs
  induction xs with
  | nil => intro ys h; cases ys <;> simp_all
  | cons x xs ih =>
    intro ys h
    cases ys with
    | nil => simp at h
    | cons y ys => simp [List.zip_cons_cons, ih ys (by simpa using h)]

/-- Splitting a point update out of a finite sum, in additive form. -/
lemma sum_mapInsert_of_mem (A : Finset AccountId) (m : AccountId → Nat)
    (k : AccountId) (v : Nat) (hk : k ∈ A) :
    (∑ a ∈ A, mapInsert m k v a) + m k = (∑ a ∈ A, m a) + v := by
  have h1 : ∑ a ∈ A.erase k, mapInsert m k v a = ∑ a ∈ A.erase k, m a := by
    refine Finset.sum_congr rfl ?_
    intro a ha
    exact mapInsert_other m k a v (Finset.ne_of_mem_erase ha)
  have h2 := Finset.sum_erase_add A (mapInsert m k v) hk
  have h3 := Finset.sum_erase_add A m hk
  have h4 : mapInsert m k v k = v := mapInsert_same m k v
  omega

/-! ## Inversion lemmas: what a successful call tells us -/

/-- Successful `_transfer`: the guards held, the checked arithmetic was in
range, and the post-state is the debit write followed by the credit write,
both computed from the pre-read balances. -/
lemma _transfer_ok {fromA toA : AccountId} {n : Nat} {s s' : SimpleToken}
    (h : _transfer fromA toA n s = (none, s')) :
    s.paused = false ∧ s.blacklisted fromA = false ∧ s.blacklisted toA = false ∧
    n ≤ s.balances fromA ∧ s.balances toA + n < u128Mod ∧
    s' = { s with balances := mapInsert (mapInsert s.balances fromA (s.balances fromA - n)) toA (s.balances toA + n) } := by
  unfold _transfer ensure_not_paused ensure_not_blacklisted at h
  split at h
  · simp_all
  · split at h
    · simp_all
    · split at h
      · simp_all
      · cases hcs : checked_sub (s.balances fromA) n with
        | none => simp only [hcs] at h; simp at h
        | some nf =>
          cases hca : checked_add (s.balances toA) n with
          | none => simp only [hcs, hca] at h; simp at h
          | some nt =>
            simp only [hcs, hca] at h
            obtain ⟨hs1, hs2⟩ := checked_sub_eq_some hcs
            obtain ⟨ha1, ha2⟩ := checked_add_eq_some hca
            simp_all

/-- Successful `transfer_from`: all four guards held, the allowance covered
the amount and was decremented by exactly the amount, and the balances moved
as in `_transfer`. -/
lemma transfer_from_ok {sp fromA toA : AccountId} {n : Nat} {s s' : SimpleToken}
    (h : transfer_from sp fromA toA n s = (none, s')) :
    s.paused = false ∧ s.blacklisted sp = false ∧ s.blacklisted fromA = false ∧
    s.blacklisted toA = false ∧ n ≤ s.allowances (fromA, sp) ∧
    n ≤ s.balances fromA ∧ s.balances toA + n < u128Mod ∧
    s'.allowances = mapInsert s.allowances (fromA, sp) (s.allowances (fromA, sp) - n) ∧
    s'.balances = mapInsert (mapInsert s.balances fromA (s.balances fromA - n)) toA (s.balances toA + n) ∧
    s'.blacklisted = s.blacklisted ∧ s'.paused = s.paused ∧ s'.owner = s.owner := by
  unfold transfer_from ensure_not_paused ensure_not_blacklisted at h
  split at h
  · simp_all
  · split at h
    · simp_all
    · split at h
      · simp_all
      · split at h
        · simp_all
        · cases hcs : checked_sub (s.allowances (fromA, sp)) n with
          | none => simp only [hcs] at h; simp at h
          | some na =>
            simp only [hcs] at h
            obtain ⟨hn, hna⟩ := checked_sub_eq_some hcs
            obtain ⟨hp1, hbf, hbt, hle, hlt, hs'⟩ := _transfer_ok h
            subst hs' hna
            simp_all

/-- Successful `mint`: owner called it, guards held, checked credit in range,
post-state is the single balance write. -/
lemma mint_ok {caller toA : AccountId} {n : Nat} {s s' : SimpleToken}
    (h : mint caller toA n s = (none, s')) :
    caller = s.owner ∧ s.paused = false ∧ s.blacklisted toA = false ∧
    s.balances toA + n < u128Mod ∧
    s' = { s with balances := mapInsert s.balances toA (s.balances toA + n) } := by
  unfold mint ensure_owner ensure_not_paused ensure_not_blacklisted at h
  split at h
  · simp_all
  · split at h
    · simp_all
    · split at h
      · simp_all
      · cases hca : checked_add (s.balances toA) n with
        | none => simp only [hca] at h; simp at h
        | some nb =>
          simp only [hca] at h
          obtain ⟨h1, h2⟩ := checked_add_eq_some hca
          simp_all

/-- Successful `burn`: guards held, the caller's balance covered the amount,
post-state is the single checked debit write. -/
lemma burn_ok {caller : AccountId} {n : Nat} {s s' : SimpleToken}
    (h : burn caller n s = (none, s')) :
    s.paused = false ∧ s.blacklisted caller = false ∧ n ≤ s.balances caller ∧
    s' = { s with balances := mapInsert s.balances caller (s.balances caller - n) } := by
  unfold burn ensure_not_paused ensure_not_blacklisted at h
  split at h
  · simp_all
  · split at h
    · simp_all
    · cases hcs : checked_sub (s.balances caller) n with
      | none => simp only [hcs] at h; simp at h
      | some nb =>
        simp only [hcs] at h
        obtain ⟨h1, h2⟩ := checked_sub_eq_some hcs
        simp_all

/-- Successful `approve`: guards held, post-state is the single allowance
overwrite. -/
lemma approve_ok {caller sp : AccountId} {n : Nat} {s s' : SimpleToken}
    (h : approve caller sp n s = (none, s')) :
    s.paused = false ∧ s.blacklisted caller = false ∧
    s' = { s with allowances := mapInsert s.allowances (caller, sp) n } := by
  unfold approve ensure_not_paused ensure_not_blacklisted at h
  split at h
  · simp_all
  · split at h
    · simp_all
    · simp_all

/-- Successful `pause`: owner called it, only the flag changed. -/
lemma pause_ok {caller : AccountId} {s s' : SimpleToken}
    (h : pause caller s = (none, s')) :
    caller = s.owner ∧ s' = { s with paused := true } := by
  unfold pause ensure_owner at h
  split at h <;> simp_all

/-- Successful `unpause`: owner called it, only the flag changed. -/
lemma unpause_ok {caller : AccountId} {s s' : SimpleToken}
    (h : unpause caller s = (none, s')) :
    caller = s.owner ∧ s' = { s with paused := false } := by
  unfold unpause ensure_owner at h
  split at h <;> simp_all

/-- Successful `blacklist`: owner called it, only the mark changed. -/
lemma blacklist_ok {caller account : AccountId} {s s' : SimpleToken}
    (h : blacklist caller account s = (none, s')) :
    caller = s.owner ∧ s' = { s with blacklisted := mapInsert s.blacklisted account true } := by
  unfold blacklist ensure_owner at h
  split at h <;> simp_all

/-- Successful `unblacklist`: owner called it, only the mark changed. -/
lemma unblacklist_ok {caller account : AccountId} {s s' : SimpleToken}
    (h : unblacklist caller account s = (none, s')) :
    caller = s.owner ∧ s' = { s with blacklisted := mapInsert s.blacklisted account false } := by
  unfold unblacklist ensure_owner at h
  split at h <;> simp_all

/-- The first component of a zipped pair comes from the first list. -/
lemma fst_mem_of_mem_zip :
    ∀ (xs : List AccountId) (ys : List Nat) (p : AccountId × Nat),
      p ∈ xs.zip ys → p.1 ∈ xs := by
  intro xs
  induction xs with
  | nil => intro ys p h; simp [List.zip] at h
  | cons x xs ih =>
    intro ys p h
    cases ys with
    | nil => simp [List.zip] at h
    | cons y ys =>
      rw [List.zip_cons_cons, List.mem_cons] at h
      rcases h with h | h
      · simp [h]
      · exact List.mem_cons_of_mem x (ih ys p h)

/-- A point update with an in-range value preserves the range bound. -/
lemma mapInsert_bound {α : Type} [DecidableEq α] {m : α → Nat} (hm : ∀ a, m a < u128Mod)
    (k : α) {v : Nat} (hv : v < u128Mod) :
    ∀ a, mapInsert m k v a < u128Mod := by
  intro a
  by_cases hx : a = k
  · subst hx; rw [mapInsert_same]; exact hv
  · rw [mapInsert_other _ _ _ _ hx]; exact hm a

/-- Moving `n` between two distinct accounts (the `_transfer` write pattern)
conserves any finite sum covering both accounts. -/
lemma sum_move (m : AccountId → Nat) (x y : AccountId) (n : Nat) (hxy : x ≠ y)
    (hn : n ≤ m x) (A : Finset AccountId) (hx : x ∈ A) (hy : y ∈ A) :
    (∑ a ∈ A, mapInsert (mapInsert m x (m x - n)) y (m y + n) a) = ∑ a ∈ A, m a := by
  have h1 := sum_mapInsert_of_mem A m x (m x - n) hx
  have h2 := sum_mapInsert_of_mem A (mapInsert m x (m x - n)) y (m y + n) hy
  have h3 : mapInsert m x (m x - n) y = m y := mapInsert_other m x y (m x - n) hxy.symm
  omega

/-- Success of the per-recipient credit loop: every field except `balances`
is untouched, balance bounds are preserved (each credit is checked), and any
finite sum covering every recipient grows by exactly the total credited. -/
lemma batch_credit_loop_ok :
    ∀ (pairs : List (AccountId × Nat)) (s s' : SimpleToken),
      batch_credit_loop pairs s = (none, s') →
      (s'.allowances = s.allowances ∧ s'.blacklisted = s.blacklisted ∧
       s'.paused = s.paused ∧ s'.owner = s.owner) ∧
      ((∀ a, s.balances a < u128Mod) → ∀ a, s'.balances a < u128Mod) ∧
      (∀ A : Finset AccountId, (∀ p ∈ pairs, p.1 ∈ A) →
        (∑ a ∈ A, s'.balances a) = (∑ a ∈ A, s.balances a) + (pairs.map Prod.snd).sum) := by
  intro pairs
  induction pairs with
  | nil =>
    intro s s' h
    simp [batch_credit_loop] at h
    simp [← h]
  | cons p rest ih =>
    intro s s' h
    obtain ⟨recipient, amount⟩ := p
    unfold batch_credit_loop ensure_not_blacklisted at h
    split at h
    · simp_all
    · cases hca : checked_add (s.balances recipient) amount with
      | none => simp only [hca] at h; simp at h
      | some updated =>
        simp only [hca] at h
        obtain ⟨hlt, hupd⟩ := checked_add_eq_some hca
        obtain ⟨hfields, hbound, hsum⟩ := ih _ s' h
        simp only at hfields hbound hsum
        refine ⟨hfields, ?_, ?_⟩
        · intro hb a
          refine hbound ?_ a
          intro x
          by_cases hx : x = recipient
          · subst hx
            rw [mapInsert_same]
            omega
          · rw [mapInsert_other _ _ _ _ hx]
            exact hb x
        · intro A hA
          have hrA : recipient ∈ A := hA (recipient, amount) (by simp)
          have hrest : ∀ q ∈ rest, q.1 ∈ A := fun q hq => hA q (by simp [hq])
          have h1 := hsum A hrest
          have h2 := sum_mapInsert_of_mem A s.balances recipient updated hrA
          simp only [List.map_cons, List.sum_cons]
          omega

/-- Successful `batch_transfer`: guards and length check held, the checked
total equals the list sum, the sender's balance covered it, and the rest is
the single sender debit followed by the credit loop on the zipped pairs. -/
lemma batch_transfer_ok {caller : AccountId} {recipients : List AccountId}
    {amounts : List Nat} {s s' : SimpleToken}
    (h : batch_transfer caller recipients amounts s = (none, s')) :
    s.paused = false ∧ s.blacklisted caller = false ∧
    recipients.length = amounts.length ∧
    amounts.sum ≤ s.balances caller ∧
    batch_credit_loop (recipients.zip amounts)
      { s with balances := mapInsert s.balances caller (s.balances caller - amounts.sum) } = (none, s') := by
  unfold batch_transfer ensure_not_paused ensure_not_blacklisted at h
  split at h
  · simp_all
  · split at h
    · simp_all
    · split at h
      · simp_all
      · cases hct : checked_total 0 amounts with
        | none => simp only [hct] at h; simp at h
        | some total =>
          simp only [hct] at h
          have htot : total = amounts.sum := checked_total_sum hct
          cases hcs : checked_sub (s.balances caller) total with
          | none => simp only [hcs] at h; simp at h
          | some nb =>
            simp only [hcs] at h
            obtain ⟨h1, h2⟩ := checked_sub_eq_some hcs
            subst htot h2
            simp_all

/-- The same write pattern on a single account (`from = to`): the credit
write overwrites the debit write, so the sum grows by `n`. -/
lemma sum_move_self (m : AccountId → Nat) (x : AccountId) (n : Nat)
    (A : Finset AccountId) (hx : x ∈ A) :
    (∑ a ∈ A, mapInsert (mapInsert m x (m x - n)) x (m x + n) a) = (∑ a ∈ A, m a) + n := by
  have h1 := sum_mapInsert_of_mem A m x (m x - n) hx
  have h2 := sum_mapInsert_of_mem A (mapInsert m x (m x - n)) x (m x + n) hx
  have h3 : mapInsert m x (m x - n) x = m x - n := mapInsert_same m x (m x - n)
  omega

/-! ## Concrete states used by witnesses and counterexamples -/

/-- A concrete reachable-shaped state: account 0 holds 100 tokens, account 0
has approved spender 1 for 40 tokens, account 5 is blacklisted, the contract
is not paused, and the owner is account 7. -/
def exState : SimpleToken :=
  { balances := fun a => if a = 0 then 100 else 0
    allowances := fun p => if p = (0, 1) then 40 else 0
    blacklisted := fun a => a == 5
    paused := false
    owner := 7 }

/-- `exState` with the paused flag set. -/
def exStatePaused : SimpleToken :=
  { exState with paused := true }

/-! ## Claim C1 -/

/-- C1 is false as stated: the claim includes the case where source and
destination are the same account, but a successful self-transfer of 3 tokens
by account 0 in `exState` (balance 100) leaves account 0 with 103 — the
credit write, computed from the pre-read balance, overwrites the debit write
— while every other balance is unchanged, so the sum of all stored balances
grows by 3 without a mint. -/
theorem C1_counterexample :
    (transfer 0 0 3 exState).1 = none ∧
    (transfer 0 0 3 exState).2.balances 0 = 103 ∧
    exState.balances 0 = 100 ∧
    ∀ x, x ≠ 0 → (transfer 0 0 3 exState).2.balances x = exState.balances x := by
  refine ⟨rfl, rfl, rfl, ?_⟩
  intro x hx
  have h103 : (103 : Nat) < u128Mod := by decide
  simp [transfer, _transfer, ensure_not_paused, ensure_not_blacklisted,
    checked_sub, checked_add, exState, mapInsert, hx, h103]

/-- C1 (amended): transfer, transfer_from and batch_transfer are
balance-conserving whenever the source and destination are distinct (for
batch_transfer always, because each credit re-reads the current balance); a
successful self-transfer (`from = to`) via transfer or transfer_from instead
increases the sum of balances by the amount; and apart from those, the sum
changes only through mint (+amount) and burn (−amount) — approve, pause,
unpause, blacklist and unblacklist never touch the balance map. Sums are
stated over every finite account set covering the involved accounts. -/
theorem C1_balance_conservation_amended :
    (∀ (caller toA : AccountId) (n : Nat) (s s' : SimpleToken), caller ≠ toA →
      transfer caller toA n s = (none, s') →
      ∀ A : Finset AccountId, caller ∈ A → toA ∈ A →
        (∑ a ∈ A, s'.balances a) = ∑ a ∈ A, s.balances a) ∧
    (∀ (sp fromA toA : AccountId) (n : Nat) (s s' : SimpleToken), fromA ≠ toA →
      transfer_from sp fromA toA n s = (none, s') →
      ∀ A : Finset AccountId, fromA ∈ A → toA ∈ A →
        (∑ a ∈ A, s'.balances a) = ∑ a ∈ A, s.balances a) ∧
    (∀ (caller : AccountId) (recipients : List AccountId) (amounts : List Nat)
       (s s' : SimpleToken),
      batch_transfer caller recipients amounts s = (none, s') →
      ∀ A : Finset AccountId, caller ∈ A → (∀ r ∈ recipients, r ∈ A) →
        (∑ a ∈ A, s'.balances a) = ∑ a ∈ A, s.balances a) ∧
    (∀ (caller : AccountId) (n : Nat) (s s' : SimpleToken),
      transfer caller caller n s = (none, s') →
      ∀ A : Finset AccountId, caller ∈ A →
        (∑ a ∈ A, s'.balances a) = (∑ a ∈ A, s.balances a) + n) ∧
    (∀ (sp b : AccountId) (n : Nat) (s s' : SimpleToken),
      transfer_from sp b b n s = (none, s') →
      ∀ A : Finset AccountId, b ∈ A →
        (∑ a ∈ A, s'.balances a) = (∑ a ∈ A, s.balances a) + n) ∧
    (∀ (caller toA : AccountId) (n : Nat) (s s' : SimpleToken),
      mint caller toA n s = (none, s') →
      ∀ A : Finset AccountId, toA ∈ A →
        (∑ a ∈ A, s'.balances a) = (∑ a ∈ A, s.balances a) + n) ∧
    (∀ (caller : AccountId) (n : Nat) (s s' : SimpleToken),
      burn caller n s = (none, s') →
      ∀ A : Finset AccountId, caller ∈ A →
        (∑ a ∈ A, s'.balances a) + n = ∑ a ∈ A, s.balances a) ∧
    (∀ (caller sp : AccountId) (n : Nat) (s s' : SimpleToken),
      approve caller sp n s = (none, s') → s'.balances = s.balances) ∧
    (∀ (caller : AccountId) (s s' : SimpleToken),
      pause caller s = (none, s') → s'.balances = s.balances) ∧
    (∀ (caller : AccountId) (s s' : SimpleToken),
      unpause caller s = (none, s') → s'.balances = s.balances) ∧
    (∀ (caller account : AccountId) (s s' : SimpleToken),
      blacklist caller account s = (none, s') → s'.balances = s.balances) ∧
    (∀ (caller account : AccountId) (s s' : SimpleToken),
      unblacklist caller account s = (none, s') → s'.balances = s.balances) := by
  refine ⟨?_, ?_, ?_, ?_, ?_, ?_, ?_, ?_, ?_, ?_, ?_, ?_⟩
  · intro caller toA n s s' hne h A hcA htA
    obtain ⟨_, _, _, hle, _, hs'⟩ := _transfer_ok h
    subst hs'
    exact sum_move s.balances caller toA n hne hle A hcA htA
  · intro sp fromA toA n s s' hne h A hfA htA
    obtain ⟨_, _, _, _, _, hble, _, _, hbal, _, _, _⟩ := transfer_from_ok h
    rw [hbal]
    exact sum_move s.balances fromA toA n hne hble A hfA htA
  · intro caller recipients amounts s s' h A hcA hrA
    obtain ⟨_, _, hlen, hle, hloop⟩ := batch_transfer_ok h
    obtain ⟨_, _, hsum⟩ := batch_credit_loop_ok _ _ _ hloop
    have hmem : ∀ p ∈ recipients.zip amounts, p.1 ∈ A :=
      fun p hp2 => hrA p.1 (fst_mem_of_mem_zip recipients amounts p hp2)
    have h1 := hsum A hmem
    simp only [] at h1
    rw [map_snd_zip_eq recipients amounts hlen] at h1
    have h2 := sum_mapInsert_of_mem A s.balances caller
      (s.balances caller - amounts.sum) hcA
    omega
  · intro caller n s s' h A hcA
    obtain ⟨_, _, _, _, _, hs'⟩ := _transfer_ok h
    subst hs'
    exact sum_move_self s.balances caller n A hcA
  · intro sp b n s s' h A hbA
    obtain ⟨_, _, _, _, _, _, _, _, hbal, _, _, _⟩ := transfer_from_ok h
    rw [hbal]
    exact sum_move_self s.balances b n A hbA
  · intro caller toA n s s' h A htA
    obtain ⟨_, _, _, _, hs'⟩ := mint_ok h
    subst hs'
    have h2 := sum_mapInsert_of_mem A s.balances toA (s.balances toA + n) htA
    show (∑ a ∈ A, mapInsert s.balances toA (s.balances toA + n) a)
      = (∑ a ∈ A, s.balances a) + n
    omega
  · intro caller n s s' h A hcA
    obtain ⟨_, _, hle, hs'⟩ := burn_ok h
    subst hs'
    have h2 := sum_mapInsert_of_mem A s.balances caller (s.balances caller - n) hcA
    show (∑ a ∈ A, mapInsert s.balances caller (s.balances caller - n) a) + n
      = ∑ a ∈ A, s.balances a
    omega
  · intro caller sp n s s' h
    obtain ⟨_, _, hs'⟩ := approve_ok h
    subst hs'
    rfl
  · intro caller s s' h
    obtain ⟨_, hs'⟩ := pause_ok h
    subst hs'
    rfl
  · intro caller s s' h
    obtain ⟨_, hs'⟩ := unpause_ok h
    subst hs'
    rfl
  · intro caller account s s' h
    obtain ⟨_, hs'⟩ := blacklist_ok h
    subst hs'
    rfl
  · intro caller account s s' h
    obtain ⟨_, hs'⟩ := unblacklist_ok h
    subst hs'
    rfl

/-- Witness for C1: the amended conservation applied to the concrete
non-self transfer of 30 tokens from account 0 to account 1 in `exState`,
summed over the account set {0, 1}. -/
theorem C1_witness :
    (∑ a ∈ ({0, 1} : Finset AccountId), (transfer 0 1 30 exState).2.balances a)
      = ∑ a ∈ ({0, 1} : Finset AccountId), exState.balances a :=
  C1_balance_conservation_amended.1 0 1 30 exState (transfer 0 1 30 exState).2
    (by decide) rfl {0, 1} (by decide) (by decide)

/-! ## Claim C2 -/

/-- C2: every operation is all-or-nothing — whenever an operation returns an
error (any guard or arithmetic failure), the committed post-state of the
invocation equals the pre-state, so no partial mutation (such as the sender
debit in batch_transfer or the allowance decrement in transfer_from, which
the raw control flow does write before a later failure) remains observable
after the failure. Observability is through `commit`, the environment's
per-invocation atomic commit (spec §5). -/
theorem C2_all_or_nothing :
    (∀ (caller toA : AccountId) (n : Nat) (s : SimpleToken) (e : Err),
      (mint caller toA n s).1 = some e → commit (mint caller toA n s) s = s) ∧
    (∀ (caller toA : AccountId) (n : Nat) (s : SimpleToken) (e : Err),
      (transfer caller toA n s).1 = some e → commit (transfer caller toA n s) s = s) ∧
    (∀ (caller : AccountId) (n : Nat) (s : SimpleToken) (e : Err),
      (burn caller n s).1 = some e → commit (burn caller n s) s = s) ∧
    (∀ (caller sp : AccountId) (n : Nat) (s : SimpleToken) (e : Err),
      (approve caller sp n s).1 = some e → commit (approve caller sp n s) s = s) ∧
    (∀ (sp fromA toA : AccountId) (n : Nat) (s : SimpleToken) (e : Err),
      (transfer_from sp fromA toA n s).1 = some e →
        commit (transfer_from sp fromA toA n s) s = s) ∧
    (∀ (caller : AccountId) (recipients : List AccountId) (amounts : List Nat)
       (s : SimpleToken) (e : Err),
      (batch_transfer caller recipients amounts s).1 = some e →
        commit (batch_transfer caller recipients amounts s) s = s) ∧
    (∀ (caller : AccountId) (s : SimpleToken) (e : Err),
      (pause caller s).1 = some e → commit (pause caller s) s = s) ∧
    (∀ (caller : AccountId) (s : SimpleToken) (e : Err),
      (unpause caller s).1 = some e → commit (unpause caller s) s = s) ∧
    (∀ (caller account : AccountId) (s : SimpleToken) (e : Err),
      (blacklist caller account s).1 = some e → commit (blacklist caller account s) s = s) ∧
    (∀ (caller account : AccountId) (s : SimpleToken) (e : Err),
      (unblacklist caller account s).1 = some e →
        commit (unblacklist caller account s) s = s) := by
  refine ⟨?_, ?_, ?_, ?_, ?_, ?_, ?_, ?_, ?_, ?_⟩ <;>
    (intros
     rename_i h
     simp [commit, h])

/-- Witness for C2: burning 200 tokens from account 0 (balance 100) in
`exState` fails, and the committed post-state is `exState` itself. -/
theorem C2_witness : commit (burn 0 200 exState) exState = exState :=
  C2_all_or_nothing.2.2.1 0 200 exState Err.underflowOnBurn rfl

/-! ## Claim C3 -/

/-- C3: for spender `sp`, accounts `fromA`, `toA` and amount `n`, with the
pause and blacklist guards passing, `transfer_from` requires
`allowance(fromA, sp) ≥ n`: it fails with the allowance-underflow error
("AllowanceExceeded") whenever `n` exceeds the stored allowance, leaving the
state untouched; and on success it decrements exactly that allowance entry by
`n`, decreases `balance_of fromA` by `n` and increases `balance_of toA` by
`n` (for `fromA ≠ toA`). -/
theorem C3_transfer_from_spec (sp fromA toA : AccountId) (n : Nat) (s : SimpleToken)
    (hp : s.paused = false) (hs : s.blacklisted sp = false)
    (hf : s.blacklisted fromA = false) (ht : s.blacklisted toA = false) :
    (s.allowances (fromA, sp) < n →
      transfer_from sp fromA toA n s = (some Err.allowanceUnderflow, s)) ∧
    (∀ s', transfer_from sp fromA toA n s = (none, s') →
      n ≤ s.allowances (fromA, sp) ∧
      s'.allowances (fromA, sp) + n = s.allowances (fromA, sp) ∧
      (fromA ≠ toA →
        s'.balances fromA + n = s.balances fromA ∧
        s'.balances toA = s.balances toA + n)) := by
  constructor
  · intro hlt
    have hnle : ¬ n ≤ s.allowances (fromA, sp) := by omega
    unfold transfer_from ensure_not_paused ensure_not_blacklisted checked_sub
    simp [hp, hs, hf, ht, hnle]
  · intro s' h
    obtain ⟨_, _, _, _, hn, hble, _, hal, hbal, _, _, _⟩ := transfer_from_ok h
    refine ⟨hn, ?_, ?_⟩
    · rw [hal, mapInsert_same]
      omega
    · intro hne
      rw [hbal]
      constructor
      · rw [mapInsert_other _ _ _ _ hne, mapInsert_same]
        omega
      · rw [mapInsert_same]

/-- Witness for C3: in `exState` the allowance of spender 1 on account 0 is
40, so a delegated transfer of 50 fails with the allowance error and a
delegated transfer of 10 moves exactly 10 and leaves allowance 30. -/
theorem C3_witness :
    transfer_from 1 0 2 50 exState = (some Err.allowanceUnderflow, exState) ∧
    ((transfer_from 1 0 2 10 exState).2.allowances (0, 1) + 10
        = exState.allowances (0, 1) ∧
      (transfer_from 1 0 2 10 exState).2.balances 0 + 10 = exState.balances 0 ∧
      (transfer_from 1 0 2 10 exState).2.balances 2 = exState.balances 2 + 10) :=
  ⟨(C3_transfer_from_spec 1 0 2 50 exState rfl rfl rfl rfl).1 (by decide),
   by
    have h := (C3_transfer_from_spec 1 0 2 10 exState rfl rfl rfl rfl).2
      (transfer_from 1 0 2 10 exState).2 rfl
    exact ⟨h.2.1, h.2.2 (by decide)⟩⟩

/-! ## Claim C4 -/

/-- C4: no stored balance or allowance is ever the result of a wrapping
subtraction. Every operation, run on well-formed storage, leaves storage
well-formed (`approve` additionally needs its input in `u128` range, which
the Rust parameter type guarantees); and every decrement is checked — a
successful burn, transfer debit, allowance spend, or batch sender debit
implies the amount was at most the stored value, and the stored result is
the exact (non-wrapped) difference, so no reachable state holds a value that
would represent a negative quantity. -/
theorem C4_no_wrap :
    (∀ (caller toA : AccountId) (n : Nat) (s s' : SimpleToken),
      WF s → mint caller toA n s = (none, s') → WF s') ∧
    (∀ (caller toA : AccountId) (n : Nat) (s s' : SimpleToken),
      WF s → transfer caller toA n s = (none, s') → WF s') ∧
    (∀ (sp fromA toA : AccountId) (n : Nat) (s s' : SimpleToken),
      WF s → transfer_from sp fromA toA n s = (none, s') → WF s') ∧
    (∀ (caller : AccountId) (n : Nat) (s s' : SimpleToken),
      WF s → burn caller n s = (none, s') → WF s') ∧
    (∀ (caller sp : AccountId) (n : Nat) (s s' : SimpleToken),
      WF s → n < u128Mod → approve caller sp n s = (none, s') → WF s') ∧
    (∀ (caller : AccountId) (recipients : List AccountId) (amounts : List Nat)
       (s s' : SimpleToken),
      WF s → batch_transfer caller recipients amounts s = (none, s') → WF s') ∧
    (∀ (caller : AccountId) (s s' : SimpleToken),
      WF s → pause caller s = (none, s') → WF s') ∧
    (∀ (caller : AccountId) (s s' : SimpleToken),
      WF s → unpause caller s = (none, s') → WF s') ∧
    (∀ (caller account : AccountId) (s s' : SimpleToken),
      WF s → blacklist caller account s = (none, s') → WF s') ∧
    (∀ (caller account : AccountId) (s s' : SimpleToken),
      WF s → unblacklist caller account s = (none, s') → WF s') ∧
    (∀ (caller : AccountId) (n : Nat) (s s' : SimpleToken),
      burn caller n s = (none, s') →
        n ≤ s.balances caller ∧ s'.balances caller + n = s.balances caller) ∧
    (∀ (caller toA : AccountId) (n : Nat) (s s' : SimpleToken), caller ≠ toA →
      transfer caller toA n s = (none, s') →
        n ≤ s.balances caller ∧ s'.balances caller + n = s.balances caller) ∧
    (∀ (sp fromA toA : AccountId) (n : Nat) (s s' : SimpleToken),
      transfer_from sp fromA toA n s = (none, s') →
        n ≤ s.allowances (fromA, sp) ∧
        s'.allowances (fromA, sp) + n = s.allowances (fromA, sp)) ∧
    (∀ (caller : AccountId) (recipients : List AccountId) (amounts : List Nat)
       (s s' : SimpleToken),
      batch_transfer caller recipients amounts s = (none, s') →
        amounts.sum ≤ s.balances caller) := by
  refine ⟨?_, ?_, ?_, ?_, ?_, ?_, ?_, ?_, ?_, ?_, ?_, ?_, ?_, ?_⟩
  · intro caller toA n s s' hWF h
    obtain ⟨_, _, _, hlt, hs'⟩ := mint_ok h
    subst hs'
    exact ⟨mapInsert_bound hWF.1 toA hlt, hWF.2⟩
  · intro caller toA n s s' hWF h
    obtain ⟨_, _, _, hle, hlt, hs'⟩ := _transfer_ok h
    subst hs'
    have hin := mapInsert_bound hWF.1 caller
      (show s.balances caller - n < u128Mod by have := hWF.1 caller; omega)
    exact ⟨mapInsert_bound hin toA hlt, hWF.2⟩
  · intro sp fromA toA n s s' hWF h
    obtain ⟨_, _, _, _, _, hble, hlt, hal, hbal, _, _, _⟩ := transfer_from_ok h
    constructor
    · rw [hbal]
      have hin := mapInsert_bound hWF.1 fromA
        (show s.balances fromA - n < u128Mod by have := hWF.1 fromA; omega)
      exact mapInsert_bound hin toA hlt
    · rw [hal]
      exact mapInsert_bound hWF.2 (fromA, sp)
        (show s.allowances (fromA, sp) - n < u128Mod by
          have := hWF.2 (fromA, sp); omega)
  · intro caller n s s' hWF h
    obtain ⟨_, _, hle, hs'⟩ := burn_ok h
    subst hs'
    exact ⟨mapInsert_bound hWF.1 caller
      (show s.balances caller - n < u128Mod by have := hWF.1 caller; omega), hWF.2⟩
  · intro caller sp n s s' hWF hn h
    obtain ⟨_, _, hs'⟩ := approve_ok h
    subst hs'
    exact ⟨hWF.1, mapInsert_bound hWF.2 (caller, sp) hn⟩
  · intro caller recipients amounts s s' hWF h
    obtain ⟨_, _, _, hle, hloop⟩ := batch_transfer_ok h
    obtain ⟨hfields, hbound, _⟩ := batch_credit_loop_ok _ _ _ hloop
    constructor
    · exact hbound (mapInsert_bound hWF.1 caller
        (show s.balances caller - amounts.sum < u128Mod by
          have := hWF.1 caller; omega))
    · rw [hfields.1]
      exact hWF.2
  · intro caller s s' hWF h
    obtain ⟨_, hs'⟩ := pause_ok h
    subst hs'
    exact hWF
  · intro caller s s' hWF h
    obtain ⟨_, hs'⟩ := unpause_ok h
    subst hs'
    exact hWF
  · intro caller account s s' hWF h
    obtain ⟨_, hs'⟩ := blacklist_ok h
    subst hs'
    exact hWF
  · intro caller account s s' hWF h
    obtain ⟨_, hs'⟩ := unblacklist_ok h
    subst hs'
    exact hWF
  · intro caller n s s' h
    obtain ⟨_, _, hle, hs'⟩ := burn_ok h
    subst hs'
    refine ⟨hle, ?_⟩
    show mapInsert s.balances caller (s.balances caller - n) caller + n
      = s.balances caller
    rw [mapInsert_same]
    omega
  · intro caller toA n s s' hne h
    obtain ⟨_, _, _, hle, _, hs'⟩ := _transfer_ok h
    subst hs'
    refine ⟨hle, ?_⟩
    show mapInsert (mapInsert s.balances caller (s.balances caller - n)) toA
      (s.balances toA + n) caller + n = s.balances caller
    rw [mapInsert_other _ _ _ _ hne, mapInsert_same]
    omega
  · intro sp fromA toA n s s' h
    obtain ⟨_, _, _, _, hn, _, _, hal, _, _, _, _⟩ := transfer_from_ok h
    refine ⟨hn, ?_⟩
    rw [hal, mapInsert_same]
    omega
  · intro caller recipients amounts s s' h
    exact (batch_transfer_ok h).2.2.2.1

/-- Witness for C4: burning 30 tokens from account 0 (balance 100) in
`exState` is a checked decrement, storing exactly 70. -/
theorem C4_witness :
    30 ≤ exState.balances 0 ∧
    (burn 0 30 exState).2.balances 0 + 30 = exState.balances 0 :=
  C4_no_wrap.2.2.2.2.2.2.2.2.2.2.1 0 30 exState (burn 0 30 exState).2 rfl

/-! ## Claim C5 -/

/-- C5 is false as stated: with the contract paused and arrays of mismatched
lengths ([1] vs []), batch_transfer fails with the pause error, not the
length-mismatch error — the length check is not the first step. -/
theorem C5_counterexample :
    batch_transfer 0 [1] [] exStatePaused = (some Err.contractPaused, exStatePaused) ∧
    Err.contractPaused ≠ Err.mismatchedInputLengths :=
  ⟨rfl, by decide⟩

/-- C5 (amended): batch_transfer checks the array lengths only after the
not-paused and not-blacklisted(sender) guards: with both guards passing,
mismatched lengths fail with the length-mismatch ValidationError and the
state unchanged; but when the contract is paused (or the sender is
blacklisted), the call fails with the pause (resp. blacklist) error even if
the lengths are mismatched. -/
theorem C5_guard_order_amended (caller : AccountId) (recipients : List AccountId)
    (amounts : List Nat) (s : SimpleToken) :
    (s.paused = false → s.blacklisted caller = false →
      recipients.length ≠ amounts.length →
      batch_transfer caller recipients amounts s = (some Err.mismatchedInputLengths, s)) ∧
    (s.paused = true →
      batch_transfer caller recipients amounts s = (some Err.contractPaused, s)) ∧
    (s.paused = false → s.blacklisted caller = true →
      batch_transfer caller recipients amounts s = (some Err.accountBlacklisted, s)) := by
  refine ⟨?_, ?_, ?_⟩
  · intro hp hb hlen
    unfold batch_transfer ensure_not_paused ensure_not_blacklisted
    simp [hp, hb, hlen]
  · intro hp
    unfold batch_transfer ensure_not_paused
    simp [hp]
  · intro hp hb
    unfold batch_transfer ensure_not_paused ensure_not_blacklisted
    simp [hp, hb]

/-- Witness for C5: with the guards passing, mismatched lengths do fail with
the length-mismatch error in `exState`. -/
theorem C5_witness :
    batch_transfer 0 [1] [] exState = (some Err.mismatchedInputLengths, exState) :=
  (C5_guard_order_amended 0 [1] [] exState).1 rfl rfl (by decide)

/-! ## Claim C6 -/

/-- C6: while the paused flag is set, mint (by its otherwise-valid caller,
the owner), transfer, burn, approve, transfer_from and batch_transfer all
fail with the pause StateError for every caller and arguments, returning the
state unchanged; pause and unpause called by the owner still succeed, and
the four read-only queries still answer from the stored state. -/
theorem C6_pause_blocks (s : SimpleToken) (hp : s.paused = true)
    (caller toA fromA sp account : AccountId) (n : Nat)
    (recipients : List AccountId) (amounts : List Nat) :
    mint s.owner toA n s = (some Err.contractPaused, s) ∧
    transfer caller toA n s = (some Err.contractPaused, s) ∧
    burn caller n s = (some Err.contractPaused, s) ∧
    approve caller sp n s = (some Err.contractPaused, s) ∧
    transfer_from caller fromA toA n s = (some Err.contractPaused, s) ∧
    batch_transfer caller recipients amounts s = (some Err.contractPaused, s) ∧
    pause s.owner s = (none, { s with paused := true }) ∧
    unpause s.owner s = (none, { s with paused := false }) ∧
    balance_of account s = s.balances account ∧
    allowance fromA sp s = s.allowances (fromA, sp) ∧
    is_paused s = true ∧
    is_blacklisted account s = s.blacklisted account := by
  refine ⟨?_, ?_, ?_, ?_, ?_, ?_, ?_, ?_, rfl, rfl, hp, rfl⟩ <;>
    simp [mint, transfer, _transfer, burn, approve, transfer_from, batch_transfer,
      pause, unpause, ensure_owner, ensure_not_paused, ensure_not_blacklisted, hp]

/-- Witness for C6: in the paused `exStatePaused`, an owner mint fails with
the pause error and an owner unpause still succeeds. -/
theorem C6_witness :
    mint exStatePaused.owner 2 5 exStatePaused
      = (some Err.contractPaused, exStatePaused) ∧
    unpause exStatePaused.owner exStatePaused
      = (none, { exStatePaused with paused := false }) :=
  ⟨(C6_pause_blocks exStatePaused rfl 0 2 0 1 3 5 [] []).1,
   (C6_pause_blocks exStatePaused rfl 0 2 0 1 3 5 [] []).2.2.2.2.2.2.2.1⟩

/-! ## Claim C7 -/

/-- C7: every caller other than the owner gets the AuthorizationError from
mint, pause, unpause, blacklist and unblacklist, with the state returned
unchanged; for the owner the owner check passes. -/
theorem C7_owner_only (s : SimpleToken) (caller toA account : AccountId) (n : Nat) :
    (caller ≠ s.owner →
      mint caller toA n s = (some Err.onlyOwner, s) ∧
      pause caller s = (some Err.onlyOwner, s) ∧
      unpause caller s = (some Err.onlyOwner, s) ∧
      blacklist caller account s = (some Err.onlyOwner, s) ∧
      unblacklist caller account s = (some Err.onlyOwner, s)) ∧
    ensure_owner s.owner s = none := by
  constructor
  · intro hc
    refine ⟨?_, ?_, ?_, ?_, ?_⟩ <;>
      simp [mint, pause, unpause, blacklist, unblacklist, ensure_owner, hc]
  · simp [ensure_owner]

/-- Witness for C7: caller 3 (not the owner 7 of `exState`) cannot mint, and
the owner check passes for the owner. -/
theorem C7_witness :
    mint 3 2 5 exState = (some Err.onlyOwner, exState) ∧
    ensure_owner exState.owner exState = none :=
  ⟨((C7_owner_only exState 3 2 4 5).1 (by decide)).1,
   (C7_owner_only exState 3 2 4 5).2⟩

/-! ## Claim C8 -/

/-- C8: approve overwrites rather than accumulates — for a caller that is
not paused and not blacklisted, approving `n1` and then `n2` for the same
spender leaves the stored allowance exactly `n2`, whatever was stored
before. -/
theorem C8_approve_overwrites (caller sp : AccountId) (n1 n2 : Nat) (s : SimpleToken)
    (hp : s.paused = false) (hb : s.blacklisted caller = false) :
    (approve caller sp n1 s).1 = none ∧
    (approve caller sp n2 (approve caller sp n1 s).2).1 = none ∧
    (approve caller sp n2 (approve caller sp n1 s).2).2.allowances (caller, sp) = n2 := by
  unfold approve ensure_not_paused ensure_not_blacklisted
  simp [hp, hb, mapInsert]

/-- Witness for C8: in `exState`, approving 7 then 9 for spender 1 leaves
allowance 9. -/
theorem C8_witness :
    (approve 0 1 7 exState).1 = none ∧
    (approve 0 1 9 (approve 0 1 7 exState).2).1 = none ∧
    (approve 0 1 9 (approve 0 1 7 exState).2).2.allowances (0, 1) = 9 :=
  C8_approve_overwrites 0 1 7 9 exState rfl rfl

/-! ## Claim C9 -/

/-- C9: a self-transfer increases the caller's balance — for an account with
balance `b`, not paused and not blacklisted, with `n ≤ b` and `b + n` in
u128 range, `transfer(a, n)` called by `a` succeeds and leaves `a`'s balance
`b + n`: both new balances are computed from the same pre-read value and the
credit write overwrites the debit write. -/
theorem C9_self_transfer (s : SimpleToken) (a : AccountId) (n : Nat)
    (hp : s.paused = false) (hb : s.blacklisted a = false)
    (hle : n ≤ s.balances a) (hlt : s.balances a + n < u128Mod) :
    (transfer a a n s).1 = none ∧
    (transfer a a n s).2.balances a = s.balances a + n := by
  unfold transfer _transfer ensure_not_paused ensure_not_blacklisted checked_sub checked_add
  simp [hp, hb, hle, hlt, mapInsert]

/-- Witness for C9: account 0's self-transfer of 3 in `exState` (balance
100) succeeds and leaves balance 103. -/
theorem C9_witness :
    (transfer 0 0 3 exState).1 = none ∧
    (transfer 0 0 3 exState).2.balances 0 = exState.balances 0 + 3 :=
  C9_self_transfer exState 0 3 rfl rfl (by decide) (by decide)

/-! ## Claim C10 -/

/-- C10: transfer_from guards on the calling spender's own blacklist status
— a blacklisted spender fails with the blacklist ComplianceError even when
neither the source nor the destination is blacklisted, for any amount
whatsoever (even one exceeding the stored allowance), and the returned
state is exactly the pre-state with the allowance untouched: the check on
the spender is evaluated before the allowance is read or decremented. -/
theorem C10_spender_blacklist (s : SimpleToken) (sp fromA toA : AccountId) (n : Nat)
    (hp : s.paused = false) (hs : s.blacklisted sp = true)
    ( _hf : s.blacklisted fromA = false) ( _ht : s.blacklisted toA = false) :
    transfer_from sp fromA toA n s = (some Err.accountBlacklisted, s) := by
  unfold transfer_from ensure_not_paused ensure_not_blacklisted
  simp [hp, hs]

/-- Witness for C10: the blacklisted account 5 cannot spend account 0's
allowance in `exState`, even for an amount far above the allowance, with
accounts 0 and 2 both clean. -/
theorem C10_witness :
    transfer_from 5 0 2 1000 exState = (some Err.accountBlacklisted, exState) :=
  C10_spender_blacklist exState 5 0 2 1000 rfl rfl rfl rfl

end SimpleTokenBalance
